import Mathlib

/-!
Shallow embedding of the overtime-tracker application (`src/app.py`).

The repository is a Flask form over a Google-Sheets row store.  The logic
embedded here is the pure core of the two endpoints:

* `submit_overtime` (`/submit`): presence check of the six required fields,
  duration arithmetic `to_hour*60+to_minute - (from_hour*60+from_minute)`,
  rejection of non-positive durations, and formatting of the stored row
  (`HH:MM` via `%02d`, duration via `f"{hours}h {minutes}m"`).
* `get_totals` (`/get_totals`): fetches all rows, filters on
  `Agent Name == agent` (exact string equality), parses each matched row's
  `Total Time` string by `time_str.replace('h','').replace('m','').split()`
  followed by Python `int(...)` on the first one or two tokens, sums the
  minutes and re-splits the sum by 60.  An `int()` failure raises, and the
  surrounding `try/except` turns the whole request into a
  `success: false` error response.

Python strings are modelled as Lean `String`/`List Char`; Python `int` as
`Int` (floor division `//` and `%` with the positive divisor 60 coincide
with `Int.ediv`/`Int.emod`); JSON dictionaries with optional keys as
structures of `Option` fields; the append-only sheet as a `List` of rows.
-/

namespace OT

/-- Value of an ASCII digit character (Python `int` digit semantics). -/
def digitVal (c : Char) : Nat := c.toNat - 48

/-- The decimal digit character for a digit value, as produced by Python
`str` on a nonnegative integer. -/
def dChar : Nat → Char
  | 0 => '0'
  | 1 => '1'
  | 2 => '2'
  | 3 => '3'
  | 4 => '4'
  | 5 => '5'
  | 6 => '6'
  | 7 => '7'
  | 8 => '8'
  | _ => '9'

/-- Decimal digit string (as a character list, most significant first) of a
natural number: the embedding of Python `str` on a nonnegative `int`. -/
def decDigits (n : Nat) : List Char :=
  if n = 0 then ['0'] else ((Nat.digits 10 n).reverse.map dChar)

/-- Python `str` of an `int`: decimal digits with a leading `-` when
negative. -/
def intRepr (i : Int) : String :=
  if i < 0 then "-" ++ ⟨decDigits i.natAbs⟩ else ⟨decDigits i.toNat⟩

/-- Left-pad a digit list with `'0'` up to width `w` (the padding step of
Python's `%0wd` formatting). -/
def padZeros (w : Nat) (s : List Char) : List Char :=
  List.replicate (w - s.length) '0' ++ s

/-- Embedding of Python `f"{i:02d}"`: zero-pad to width 2; for a negative
number the sign occupies one column and the digits are padded to width 1. -/
def pad2 (i : Int) : String :=
  if i < 0 then "-" ++ ⟨padZeros 1 (decDigits i.natAbs)⟩
  else ⟨padZeros 2 (decDigits i.toNat)⟩

/-- Embedding of `f"{hours}h {minutes}m"` with
`hours = total_minutes // 60` and `minutes = total_minutes % 60`
(app.py lines 90-97). -/
def fmtTotal (total_minutes : Int) : String :=
  intRepr (total_minutes.ediv 60) ++ "h " ++ intRepr (total_minutes.emod 60) ++ "m"

/-- The characters Python `str.split()` (no argument) splits on. -/
def pySpace (c : Char) : Bool :=
  c == ' ' || c == '\t' || c == '\n' || c == '\r' || c == '\x0b' || c == '\x0c'

/-- Worker for `splitWs`: `acc` holds the current token, reversed. -/
def splitWsGo : List Char → List Char → List (List Char)
  | [], acc => if acc = [] then [] else [acc.reverse]
  | c :: rest, acc =>
    if pySpace c then
      if acc = [] then splitWsGo rest [] else acc.reverse :: splitWsGo rest []
    else splitWsGo rest (c :: acc)

/-- Embedding of Python `str.split()` with no argument: split on runs of
whitespace, discarding empty tokens. -/
def splitWs (cs : List Char) : List (List Char) := splitWsGo cs []

/-- Automaton accepting the digit part of a Python `int()` literal:
nonempty, digits with single underscores strictly between digits.
`prev` records whether the previous character was a digit. -/
def validDigits : List Char → Bool → Bool
  | [], prev => prev
  | c :: rest, prev =>
    if c.isDigit then validDigits rest true
    else if c = '_' then prev && validDigits rest false
    else false

/-- Numeric value of a valid digit-and-underscore sequence. -/
def digitsValue (cs : List Char) : Nat :=
  (cs.filter (fun c => c != '_')).foldl (fun a c => a * 10 + digitVal c) 0

/-- Embedding of Python `int(token)` on a whitespace-free token: an optional
sign followed by a valid digit sequence; `none` models the `ValueError`
raised on anything else. -/
def pyInt (cs : List Char) : Option Int :=
  match cs with
  | [] => none
  | c :: rest =>
    if c = '+' then
      if validDigits rest false then some (digitsValue rest) else none
    else if c = '-' then
      if validDigits rest false then some (-(digitsValue rest : Int)) else none
    else
      if validDigits (c :: rest) false then some (digitsValue (c :: rest)) else none

/-- The JSON body of a `/submit` request (app.py line 76).  Required keys may
be absent; `reason`, `bonus`, `holiday`, `overnight` are read with
`data.get(..., default)`. -/
structure SubmitData where
  agent : Option String
  date : Option String
  from_hour : Option Int
  from_minute : Option Int
  to_hour : Option Int
  to_minute : Option Int
  reason : Option String
  bonus : Option String
  holiday : Option Bool
  overnight : Option Bool

/-- One row of the `OT_Records` sheet, in header order
`Agent Name, Date, From, To, Reason, 20k Bonus, Holiday?, Overnight?,
Total Time` (app.py lines 100-110). -/
structure StoredRecord where
  agentName : String
  date : String
  fromTime : String
  toTime : String
  reason : String
  bonus : String
  holiday : String
  overnight : String
  totalTime : String
deriving DecidableEq

/-- Outcome of `submit_overtime`: the two validation failures
(`'Datos incompletos'`, `'La hora de fin debe ser después de la hora de
inicio'`) or success carrying the row to append and the confirmation
message. -/
inductive SubmitResult where
  | incompleteInput : SubmitResult
  | invalidRange : SubmitResult
  | ok : StoredRecord → String → SubmitResult
deriving DecidableEq

/-- Embedding of the pure part of `submit_overtime` (app.py lines 74-122):
presence check of the six required keys, duration arithmetic, range check,
and row/message formatting.  Store connectivity is outside the model. -/
def submit_overtime (data : SubmitData) : SubmitResult :=
  match data.agent, data.date, data.from_hour, data.from_minute,
        data.to_hour, data.to_minute with
  | some agent, some _date, some fh, some fm, some th, some tm =>
    let from_minutes : Int := fh * 60 + fm
    let to_minutes : Int := th * 60 + tm
    let total_minutes := to_minutes - from_minutes
    if total_minutes ≤ 0 then .invalidRange
    else
      let total_time := fmtTotal total_minutes
      .ok
        { agentName := agent
          date := _date
          fromTime := pad2 fh ++ ":" ++ pad2 fm
          toTime := pad2 th ++ ":" ++ pad2 tm
          reason := data.reason.getD "Scheduled OT"
          bonus := data.bonus.getD "No"
          holiday := if data.holiday.getD false then "Yes" else "No"
          overnight := if data.overnight.getD false then "Yes" else "No"
          totalTime := total_time }
        ("Registro guardado: " ++ agent ++ " - " ++ total_time)
  | _, _, _, _, _, _ => .incompleteInput

/-- Effect of one `/submit` request on the sheet: `sheet.append_row(row)` is
reached only on the success path (app.py line 117). -/
def submitStore (store : List StoredRecord) (data : SubmitData) : List StoredRecord :=
  match submit_overtime data with
  | .ok row _ => store ++ [row]
  | _ => store

/-- One entry of the `rows` list built by `get_totals`
(app.py lines 160-169). -/
structure RowSummary where
  date : String
  fromTime : String
  toTime : String
  hoursStr : String
  reason : String
  bonus : String
  holiday : String
  overnight : String
deriving DecidableEq

/-- The per-record summary appended to `rows` for a matched record; its
`Hours` field is the raw `Total Time` string. -/
def summarize (r : StoredRecord) : RowSummary :=
  { date := r.date, fromTime := r.fromTime, toTime := r.toTime
    hoursStr := r.totalTime, reason := r.reason, bonus := r.bonus
    holiday := r.holiday, overnight := r.overnight }

/-- The JSON body of a `/get_totals` request: `data.get('agent')` and
`data.get('period')` (app.py lines 132-133). -/
structure TotalsQuery where
  agent : Option String
  period : Option String

/-- Outcome of `get_totals`: the success payload, or `error`, modelling the
`success: false` response with a message produced when a stored
`Total Time` token makes `int()` raise (app.py lines 181-183). -/
inductive TotalsResult where
  | ok : Int → Int → List RowSummary → TotalsResult
  | error : TotalsResult
deriving DecidableEq

/-- Token list of a `Total Time` cell:
`time_str.replace('h','').replace('m','').split()` (app.py line 154). -/
def timeTokens (time_str : String) : List (List Char) :=
  splitWs ((time_str.toList.filter (fun c => c != 'h')).filter (fun c => c != 'm'))

/-- Minute contribution of one record's `Total Time` string
(app.py lines 154-158): two or more tokens use the first two as hours and
minutes, one token is hours only, zero tokens add nothing; `none` models
the `ValueError` raised by `int()` on a non-numeric used token. -/
def parseTokens : List (List Char) → Option Int
  | [] => some 0
  | [p] =>
    match pyInt p with
    | some v => some (v * 60)
    | none => none
  | p0 :: p1 :: _ =>
    match pyInt p0, pyInt p1 with
    | some a, some b => some (a * 60 + b)
    | _, _ => none

/-- Minute contribution of one record, chaining tokenisation and token use. -/
def parseTotalTime (time_str : String) : Option Int :=
  parseTokens (timeTokens time_str)

/-- The aggregation loop of `get_totals` (app.py lines 151-172) over the
already-filtered records, carrying the running minute total and the `rows`
list; a parse failure aborts the whole request via the `except` handler. -/
def totalsGo : List StoredRecord → Int → List RowSummary → TotalsResult
  | [], total_minutes, rows => .ok (total_minutes.ediv 60) (total_minutes.emod 60) rows
  | r :: rest, total_minutes, rows =>
    match parseTotalTime r.totalTime with
    | none => .error
    | some m => totalsGo rest (total_minutes + m) (rows ++ [summarize r])

/-- Embedding of the pure part of `get_totals` (app.py lines 128-183):
filter the fetched records on `Agent Name == agent`, then aggregate.
The `period` field is read but never used. -/
def get_totals (q : TotalsQuery) (records : List StoredRecord) : TotalsResult :=
  totalsGo (records.filter (fun r => q.agent == some r.agentName)) 0 []

/-- A token list whose used tokens (the sole token, or the first two when
there are at least two) contain one that Python `int()` rejects. -/
def badUsedToken (ts : List (List Char)) : Prop :=
  (∃ p, ts = [p] ∧ pyInt p = none) ∨
  (∃ p q rest, ts = p :: q :: rest ∧ (pyInt p = none ∨ pyInt q = none))


theorem digitVal_dChar {d : Nat} (h : d < 10) : digitVal (dChar d) = d := by
  interval_cases d <;> rfl

theorem isDigit_dChar {d : Nat} (h : d < 10) : (dChar d).isDigit = true := by
  interval_cases d <;> rfl

theorem decDigits_ne_nil (n : Nat) : decDigits n ≠ [] := by
  unfold decDigits
  split
  · simp
  · intro h
    have h10 : (Nat.digits 10 n) ≠ [] := by
      apply Nat.digits_ne_nil_iff_ne_zero.mpr
      assumption
    simp_all

theorem decDigits_isDigit {n : Nat} {c : Char} (hc : c ∈ decDigits n) : c.isDigit = true := by
  unfold decDigits at hc
  split at hc
  · simp at hc; subst hc; rfl
  · simp only [List.mem_map, List.mem_reverse] at hc
    obtain ⟨d, hd, rfl⟩ := hc
    exact isDigit_dChar (Nat.digits_lt_base (by norm_num) hd)

theorem ne_of_isDigit {c x : Char} (h : c.isDigit = true) (hx : x.isDigit = false) :
    c ≠ x := by
  intro heq; subst heq; rw [h] at hx; simp at hx

theorem isDigit_facts {c : Char} (h : c.isDigit = true) :
    c ≠ 'h' ∧ c ≠ 'm' ∧ c ≠ '_' ∧ c ≠ '+' ∧ c ≠ '-' ∧ pySpace c = false := by
  refine ⟨ne_of_isDigit h rfl, ne_of_isDigit h rfl, ne_of_isDigit h rfl,
    ne_of_isDigit h rfl, ne_of_isDigit h rfl, ?_⟩
  have hs : ∀ x : Char, x.isDigit = false → (c == x) = false := by
    intro x hx
    exact beq_eq_false_iff_ne.mpr (ne_of_isDigit h hx)
  unfold pySpace
  rw [hs ' ' rfl, hs '\t' rfl, hs '\n' rfl, hs '\r' rfl, hs '\x0b' rfl, hs '\x0c' rfl]
  rfl


theorem foldl_digits_eq (L : List Nat) (hL : ∀ d ∈ L, d < 10) (a : Nat) :
    List.foldl (fun acc c => acc * 10 + digitVal c) a (L.reverse.map dChar) =
      a * 10 ^ L.length + Nat.ofDigits 10 L := by
  induction L generalizing a with
  | nil => simp [Nat.ofDigits_nil]
  | cons d L ih =>
    have hd : d < 10 := hL d (List.mem_cons_self d L)
    have hL' : ∀ x ∈ L, x < 10 := fun x hx => hL x (List.mem_cons_of_mem d hx)
    simp only [List.reverse_cons, List.map_append, List.foldl_append, List.map_cons,
      List.map_nil, List.foldl_cons, List.foldl_nil]
    rw [ih hL' a, digitVal_dChar hd, Nat.ofDigits_cons]
    simp only [List.length_cons, pow_succ]
    ring

theorem validDigits_of_all (cs : List Char) (h : ∀ c ∈ cs, c.isDigit = true)
    (hne : cs ≠ []) (b : Bool) : validDigits cs b = true := by
  induction cs generalizing b with
  | nil => exact absurd rfl hne
  | cons c rest ih =>
    have hc : c.isDigit = true := h c (List.mem_cons_self c rest)
    unfold validDigits
    rw [hc]
    simp only [if_true]
    cases rest with
    | nil => rfl
    | cons c' rest' =>
      exact ih (fun x hx => h x (List.mem_cons_of_mem c hx)) (by simp) true

theorem digitsValue_decDigits (n : Nat) : digitsValue (decDigits n) = n := by
  have hfilter : (decDigits n).filter (fun c => c != '_') = decDigits n := by
    apply List.filter_eq_self.mpr
    intro c hc
    simpa using (isDigit_facts (decDigits_isDigit hc)).2.2.1
  unfold digitsValue
  rw [hfilter]
  unfold decDigits
  split
  · subst n; rfl
  · rw [foldl_digits_eq _ (fun d hd => Nat.digits_lt_base (by norm_num) hd) 0]
    simp [Nat.ofDigits_digits]

theorem pyInt_cons (c : Char) (rest : List Char) :
    pyInt (c :: rest) =
      if c = '+' then
        if validDigits rest false then some ((digitsValue rest : Nat) : Int) else none
      else if c = '-' then
        if validDigits rest false then some (-(digitsValue rest : Int)) else none
      else
        if validDigits (c :: rest) false then some ((digitsValue (c :: rest) : Nat) : Int)
        else none := rfl

theorem pyInt_decDigits (n : Nat) : pyInt (decDigits n) = some (n : Int) := by
  rcases hcs : decDigits n with _ | ⟨c, rest⟩
  · exact absurd hcs (decDigits_ne_nil n)
  · have hall : ∀ x ∈ decDigits n, x.isDigit = true := fun x hx => decDigits_isDigit hx
    have hc : c.isDigit = true := hall c (hcs ▸ List.mem_cons_self c rest)
    obtain ⟨-, -, -, hplus, hminus, -⟩ := isDigit_facts hc
    rw [pyInt_cons, if_neg hplus, if_neg hminus,
      if_pos (validDigits_of_all _ (hcs ▸ hall) (by simp) false)]
    rw [← hcs, digitsValue_decDigits]


theorem splitWsGo_cons (c : Char) (l acc : List Char) :
    splitWsGo (c :: l) acc =
      if pySpace c then
        (if acc = [] then splitWsGo l [] else acc.reverse :: splitWsGo l [])
      else splitWsGo l (c :: acc) := rfl

theorem splitWsGo_no_space (t : List Char) (ht : ∀ c ∈ t, pySpace c = false)
    (rest acc : List Char) :
    splitWsGo (t ++ rest) acc = splitWsGo rest (t.reverse ++ acc) := by
  induction t generalizing acc with
  | nil => simp
  | cons c t ih =>
    have hc : pySpace c = false := ht c (List.mem_cons_self c t)
    rw [List.cons_append, splitWsGo_cons, hc]
    simp only [Bool.false_eq_true, if_false]
    rw [ih (fun x hx => ht x (List.mem_cons_of_mem c hx)) (c :: acc)]
    simp [List.append_assoc]

theorem splitWs_pair (t1 t2 : List Char) (h1 : t1 ≠ []) (h2 : t2 ≠ [])
    (ht1 : ∀ c ∈ t1, pySpace c = false) (ht2 : ∀ c ∈ t2, pySpace c = false) :
    splitWs (t1 ++ ' ' :: t2) = [t1, t2] := by
  unfold splitWs
  rw [splitWsGo_no_space t1 ht1 (' ' :: t2) [], splitWsGo_cons]
  have hsp : pySpace ' ' = true := rfl
  rw [hsp]
  simp only [if_true, List.append_nil]
  rw [if_neg (by simp [h1]), List.reverse_reverse]
  have ht2' : splitWsGo t2 [] = splitWsGo [] (t2.reverse ++ []) := by
    have := splitWsGo_no_space t2 ht2 [] []
    rwa [List.append_nil] at this
  rw [ht2']
  simp [splitWsGo, h2]


theorem filter_digits_ne (x : Char) (hx : x.isDigit = false) (l : List Char)
    (hl : ∀ c ∈ l, c.isDigit = true) : l.filter (fun c => c != x) = l :=
  List.filter_eq_self.mpr fun c hc => by
    simpa [bne_iff_ne] using ne_of_isDigit (hl c hc) hx

theorem timeTokens_fmt (a b : Nat) :
    timeTokens (String.mk (decDigits a) ++ "h " ++ String.mk (decDigits b) ++ "m") =
      [decDigits a, decDigits b] := by
  have ha : ∀ c ∈ decDigits a, c.isDigit = true := fun c hc => decDigits_isDigit hc
  have hb : ∀ c ∈ decDigits b, c.isDigit = true := fun c hc => decDigits_isDigit hc
  have hdata : (String.mk (decDigits a) ++ "h " ++ String.mk (decDigits b) ++ "m").toList =
      decDigits a ++ 'h' :: ' ' :: (decDigits b ++ ['m']) := by
    simp [String.toList, String.data_append]
  have hf1 : (decDigits a ++ 'h' :: ' ' :: (decDigits b ++ ['m'])).filter (fun c => c != 'h') =
      decDigits a ++ ' ' :: (decDigits b ++ ['m']) := by
    rw [List.filter_append, filter_digits_ne 'h' rfl _ ha,
      List.filter_cons_of_neg (by decide), List.filter_cons_of_pos (by decide),
      List.filter_append, filter_digits_ne 'h' rfl _ hb,
      List.filter_cons_of_pos (by decide), List.filter_nil]
  have hf2 : (decDigits a ++ ' ' :: (decDigits b ++ ['m'])).filter (fun c => c != 'm') =
      decDigits a ++ ' ' :: decDigits b := by
    rw [List.filter_append, filter_digits_ne 'm' rfl _ ha,
      List.filter_cons_of_pos (by decide),
      List.filter_append, filter_digits_ne 'm' rfl _ hb,
      List.filter_cons_of_neg (by decide), List.filter_nil, List.append_nil]
  unfold timeTokens
  rw [hdata, hf1, hf2]
  apply splitWs_pair _ _ (decDigits_ne_nil a) (decDigits_ne_nil b)
  · exact fun c hc => (isDigit_facts (ha c hc)).2.2.2.2.2
  · exact fun c hc => (isDigit_facts (hb c hc)).2.2.2.2.2

/-- C5: round-trip — for every non-negative integer minute count `n`,
formatting `n` with `submit_overtime`'s duration formatter
(`fmtTotal`, i.e. `"\x7bn//60\x7dh \x7bn%60\x7dm"`) and parsing the result back with
the aggregator's parser (`parseTotalTime`) yields exactly `n`. -/
theorem parse_fmt_roundtrip (n : Nat) : parseTotalTime (fmtTotal (n : Int)) = some (n : Int) := by
  have hdiv : (0:Int) ≤ (n : Int).ediv 60 := Int.ediv_nonneg (by positivity) (by norm_num)
  have hmod : (0:Int) ≤ (n : Int).emod 60 := Int.emod_nonneg _ (by norm_num)
  have h1 : intRepr ((n : Int).ediv 60) = String.mk (decDigits ((n : Int).ediv 60).toNat) := by
    unfold intRepr; rw [if_neg (not_lt.mpr hdiv)]
  have h2 : intRepr ((n : Int).emod 60) = String.mk (decDigits ((n : Int).emod 60).toNat) := by
    unfold intRepr; rw [if_neg (not_lt.mpr hmod)]
  unfold fmtTotal
  rw [h1, h2]
  unfold parseTotalTime
  rw [timeTokens_fmt]
  simp only [parseTokens, pyInt_decDigits]
  have heq : 60 * ((n : Int).ediv 60) + (n : Int).emod 60 = (n : Int) := Int.ediv_add_emod _ 60
  have ht1 : ((((n : Int).ediv 60).toNat : Int)) = (n : Int).ediv 60 := Int.toNat_of_nonneg hdiv
  have ht2 : ((((n : Int).emod 60).toNat : Int)) = (n : Int).emod 60 := Int.toNat_of_nonneg hmod
  congr 1
  omega


/-- Helper: on any input with all six required fields present and a strictly
positive computed duration, `submit_overtime` succeeds with the fully
formatted row and confirmation message. -/
theorem submit_overtime_pos (a d : String) (fh fm th tm : Int)
    (rs bo : Option String) (ho ov : Option Bool)
    (hlt : fh * 60 + fm < th * 60 + tm) :
    submit_overtime ⟨some a, some d, some fh, some fm, some th, some tm, rs, bo, ho, ov⟩ =
      .ok
        { agentName := a
          date := d
          fromTime := pad2 fh ++ ":" ++ pad2 fm
          toTime := pad2 th ++ ":" ++ pad2 tm
          reason := rs.getD "Scheduled OT"
          bonus := bo.getD "No"
          holiday := if ho.getD false then "Yes" else "No"
          overnight := if ov.getD false then "Yes" else "No"
          totalTime := intRepr ((th * 60 + tm - (fh * 60 + fm)).ediv 60) ++ "h " ++
            intRepr ((th * 60 + tm - (fh * 60 + fm)).emod 60) ++ "m" }
        ("Registro guardado: " ++ a ++ " - " ++
          (intRepr ((th * 60 + tm - (fh * 60 + fm)).ediv 60) ++ "h " ++
            intRepr ((th * 60 + tm - (fh * 60 + fm)).emod 60) ++ "m")) := by
  simp only [submit_overtime]
  rw [if_neg (by omega)]
  rfl


/-- C2: for every input with all required fields present but
`to_minutes <= from_minutes`, `submit_overtime` fails with the invalid-range
error and the store is left unchanged, so no record with non-positive
duration is ever persisted by a submit. -/
theorem submit_rejects_nonpositive (a d : String) (fh fm th tm : Int)
    (rs bo : Option String) (ho ov : Option Bool) (store : List StoredRecord)
    (hle : th * 60 + tm ≤ fh * 60 + fm) :
    submit_overtime ⟨some a, some d, some fh, some fm, some th, some tm, rs, bo, ho, ov⟩ =
        .invalidRange ∧
      submitStore store ⟨some a, some d, some fh, some fm, some th, some tm, rs, bo, ho, ov⟩ =
        store := by
  have h1 : submit_overtime
      ⟨some a, some d, some fh, some fm, some th, some tm, rs, bo, ho, ov⟩ = .invalidRange := by
    simp only [submit_overtime]
    rw [if_pos (by omega)]
  exact ⟨h1, by unfold submitStore; rw [h1]⟩

/-- C3: for every input missing any of the six required fields,
`submit_overtime` fails with the incomplete-input error and the store is
left untouched. -/
theorem submit_rejects_incomplete (data : SubmitData) (store : List StoredRecord)
    (h : data.agent = none ∨ data.date = none ∨ data.from_hour = none ∨
      data.from_minute = none ∨ data.to_hour = none ∨ data.to_minute = none) :
    submit_overtime data = .incompleteInput ∧ submitStore store data = store := by
  have h1 : submit_overtime data = .incompleteInput := by
    obtain ⟨ag, dt, f1, f2, t1, t2, rs, bo, ho, ov⟩ := data
    simp only at h
    cases ag <;> cases dt <;> cases f1 <;> cases f2 <;> cases t1 <;> cases t2 <;>
      simp_all [submit_overtime]
  exact ⟨h1, by unfold submitStore; rw [h1]⟩

/-- C9: `submit_overtime` performs no range validation on hour and minute
values: any input whose required fields are present and whose computed
duration is strictly positive is accepted and appended, with no constraint
restricting hours to 0-23 or minutes to 0-59 (the witness instantiates
`to_hour = 99`). -/
theorem submit_appends_without_range_check (a d : String) (fh fm th tm : Int)
    (rs bo : Option String) (ho ov : Option Bool) (store : List StoredRecord)
    (hlt : fh * 60 + fm < th * 60 + tm) :
    ∃ row msg,
      submit_overtime ⟨some a, some d, some fh, some fm, some th, some tm, rs, bo, ho, ov⟩ =
          .ok row msg ∧
        submitStore store ⟨some a, some d, some fh, some fm, some th, some tm, rs, bo, ho, ov⟩ =
          store ++ [row] := by
  refine ⟨_, _, submit_overtime_pos a d fh fm th tm rs bo ho ov hlt, ?_⟩
  unfold submitStore
  rw [submit_overtime_pos a d fh fm th tm rs bo ho ov hlt]


theorem totalsGo_ok_rows (l : List StoredRecord) (total : Int) (acc rows : List RowSummary)
    (th tm : Int) (h : totalsGo l total acc = .ok th tm rows) :
    rows = acc ++ l.map summarize := by
  induction l generalizing total acc with
  | nil =>
    unfold totalsGo at h
    injection h with h1 h2 h3
    simp [h3]
  | cons r rest ih =>
    unfold totalsGo at h
    cases hp : parseTotalTime r.totalTime with
    | none => rw [hp] at h; exact absurd h (by simp)
    | some m =>
      rw [hp] at h
      have := ih _ _ h
      simp [this]

theorem totalsGo_error_of_bad (l : List StoredRecord) (total : Int) (acc : List RowSummary)
    (h : ∃ r ∈ l, parseTotalTime r.totalTime = none) : totalsGo l total acc = .error := by
  induction l generalizing total acc with
  | nil => obtain ⟨r, hr, -⟩ := h; exact absurd hr (List.not_mem_nil r)
  | cons s rest ih =>
    unfold totalsGo
    cases hp : parseTotalTime s.totalTime with
    | none => rfl
    | some m =>
      obtain ⟨r, hr, hrn⟩ := h
      rcases List.mem_cons.mp hr with rfl | hr'
      · rw [hp] at hrn; exact absurd hrn (by simp)
      · exact ih _ _ ⟨r, hr', hrn⟩

theorem parse_none_of_bad (t : String) (h : badUsedToken (timeTokens t)) :
    parseTotalTime t = none := by
  unfold parseTotalTime
  rcases h with ⟨p, hts, hp⟩ | ⟨p, q, rest, hts, hpq⟩
  · rw [hts]
    simp only [parseTokens]
    rw [hp]
  · rw [hts]
    simp only [parseTokens]
    rcases hpq with hp | hq
    · rw [hp]
    · rw [hq]
      cases pyInt p <;> rfl

/-- C4 (amended): during aggregation a stored `Total Time` string causes a
parse failure exactly when its token list (after stripping `h` and `m` and
splitting on whitespace) consists of one token that is not a valid integer,
or has two or more tokens of which the first or second is not a valid
integer.  In particular a string with zero tokens causes no failure (it
contributes zero minutes), and tokens beyond the second are never parsed. -/
theorem parseTotalTime_none_iff (t : String) :
    parseTotalTime t = none ↔ badUsedToken (timeTokens t) := by
  constructor
  · intro h
    unfold parseTotalTime at h
    unfold badUsedToken
    rcases hts : timeTokens t with _ | ⟨p, _ | ⟨q, rest⟩⟩
    · rw [hts] at h; exact absurd h (by simp [parseTokens])
    · rw [hts] at h
      simp only [parseTokens] at h
      left
      refine ⟨p, rfl, ?_⟩
      cases hp : pyInt p with
      | none => rfl
      | some v => rw [hp] at h; exact absurd h (by simp)
    · rw [hts] at h
      simp only [parseTokens] at h
      right
      refine ⟨p, q, rest, rfl, ?_⟩
      cases hp : pyInt p with
      | none => exact Or.inl rfl
      | some v =>
        cases hq : pyInt q with
        | none => exact Or.inr rfl
        | some w => rw [hp, hq] at h; exact absurd h (by simp)
  · exact parse_none_of_bad t


theorem filter_agent_eq (a : String) (records : List StoredRecord) :
    records.filter (fun r => (some a : Option String) == some r.agentName) =
      records.filter (fun r => r.agentName == a) := by
  apply List.filter_congr
  intro r _
  by_cases h : a = r.agentName <;> simp [h, Ne.symm]

/-- C6: for every agent with zero matching stored records, `get_totals`
returns success with `total_hours = 0`, `total_minutes = 0` and an empty
rows list. -/
theorem getTotals_empty_agent (a : String) (p : Option String)
    (records : List StoredRecord) (h : ∀ r ∈ records, r.agentName ≠ a) :
    get_totals ⟨some a, p⟩ records = .ok 0 0 [] := by
  unfold get_totals
  have hf : records.filter (fun r => (some a : Option String) == some r.agentName) = [] := by
    rw [List.filter_eq_nil_iff]
    intro r hr
    simp [Ne.symm (h r hr)]
  rw [hf]
  decide

/-- C7 (amended): whenever `get_totals` succeeds, its rows are the
summaries of exactly those stored records whose `Agent Name` equals the
queried agent under exact case-sensitive string comparison, in store order.
(As originally stated the claim fails: when a matching record's
`Total Time` does not parse, the whole query errors and returns no rows at
all — see the counterexample.) -/
theorem getTotals_rows_exact (a : String) (p : Option String)
    (records : List StoredRecord) (th tm : Int) (rows : List RowSummary)
    (h : get_totals ⟨some a, p⟩ records = .ok th tm rows) :
    rows = (records.filter (fun r => r.agentName == a)).map summarize := by
  unfold get_totals at h
  rw [filter_agent_eq] at h
  have := totalsGo_ok_rows _ _ _ _ _ _ h
  simpa using this

/-- C8: the result of `get_totals` is identical for any two values of the
supplied `period` parameter — the field is read but never influences
filtering, aggregation, or the returned rows. -/
theorem getTotals_period_independent (ag : Option String) (p1 p2 : Option String)
    (records : List StoredRecord) :
    get_totals ⟨ag, p1⟩ records = get_totals ⟨ag, p2⟩ records := rfl

/-- C10: if any matched record's `Total Time` string yields a first or
second whitespace-separated token that Python `int()` rejects, the entire
query fails with an error result rather than skipping the record. -/
theorem getTotals_fails_on_bad_token (a : String) (p : Option String)
    (records : List StoredRecord)
    (h : ∃ r ∈ records, r.agentName = a ∧ badUsedToken (timeTokens r.totalTime)) :
    get_totals ⟨some a, p⟩ records = .error := by
  obtain ⟨r, hr, hagent, hbad⟩ := h
  unfold get_totals
  apply totalsGo_error_of_bad
  refine ⟨r, List.mem_filter.mpr ⟨hr, by simp [hagent]⟩, parse_none_of_bad _ hbad⟩


/-- C1: for every input with all required fields present and
`to_minutes > from_minutes`, `submit_overtime` stores `total_time` exactly
equal to `"\x7b(to_minutes-from_minutes)//60\x7dh \x7b(to_minutes-from_minutes)%60\x7dm"`
(here `intRepr (... .ediv 60) ++ "h " ++ intRepr (... .emod 60) ++ "m"`,
floor division and remainder agreeing with Python on the positive divisor
60), and formats the stored From and To fields as zero-padded `"HH:MM"`
(`pad2 _ ++ ":" ++ pad2 _`, the embedding of `f"\x7b...:02d\x7d:\x7b...:02d\x7d"`). -/
theorem submit_total_time_and_hhmm_format (a d : String) (fh fm th tm : Int)
    (rs bo : Option String) (ho ov : Option Bool)
    (hlt : fh * 60 + fm < th * 60 + tm) :
    submit_overtime ⟨some a, some d, some fh, some fm, some th, some tm, rs, bo, ho, ov⟩ =
      .ok
        { agentName := a
          date := d
          fromTime := pad2 fh ++ ":" ++ pad2 fm
          toTime := pad2 th ++ ":" ++ pad2 tm
          reason := rs.getD "Scheduled OT"
          bonus := bo.getD "No"
          holiday := if ho.getD false then "Yes" else "No"
          overnight := if ov.getD false then "Yes" else "No"
          totalTime := intRepr ((th * 60 + tm - (fh * 60 + fm)).ediv 60) ++ "h " ++
            intRepr ((th * 60 + tm - (fh * 60 + fm)).emod 60) ++ "m" }
        ("Registro guardado: " ++ a ++ " - " ++
          (intRepr ((th * 60 + tm - (fh * 60 + fm)).ediv 60) ++ "h " ++
            intRepr ((th * 60 + tm - (fh * 60 + fm)).emod 60) ++ "m")) :=
  submit_overtime_pos a d fh fm th tm rs bo ho ov hlt

/-- Witness for C1 at the spec's scenario: agent `"Ana Martínez"`, 18:30 to
21:00. -/
theorem submit_total_time_and_hhmm_format_witness :
    ((18 : Int) * 60 + 30 < 21 * 60 + 0) ∧
    submit_overtime ⟨some "Ana Martínez", some "2024-01-10", some 18, some 30, some 21,
        some 0, none, none, none, none⟩ =
      .ok
        { agentName := "Ana Martínez"
          date := "2024-01-10"
          fromTime := pad2 18 ++ ":" ++ pad2 30
          toTime := pad2 21 ++ ":" ++ pad2 0
          reason := "Scheduled OT"
          bonus := "No"
          holiday := "No"
          overnight := "No"
          totalTime := intRepr (((21 : Int) * 60 + 0 - (18 * 60 + 30)).ediv 60) ++ "h " ++
            intRepr (((21 : Int) * 60 + 0 - (18 * 60 + 30)).emod 60) ++ "m" }
        ("Registro guardado: " ++ "Ana Martínez" ++ " - " ++
          (intRepr (((21 : Int) * 60 + 0 - (18 * 60 + 30)).ediv 60) ++ "h " ++
            intRepr (((21 : Int) * 60 + 0 - (18 * 60 + 30)).emod 60) ++ "m")) :=
  ⟨by decide, submit_total_time_and_hhmm_format "Ana Martínez" "2024-01-10" 18 30 21 0
    none none none none (by decide)⟩

/-- Witness for C2 at the spec's scenario: 9:00 to 9:00 is rejected and
nothing is appended. -/
theorem submit_rejects_nonpositive_witness :
    ((9 : Int) * 60 + 0 ≤ 9 * 60 + 0) ∧
    (submit_overtime ⟨some "Juan Pérez", some "2024-01-10", some 9, some 0, some 9, some 0,
        none, none, none, none⟩ = .invalidRange ∧
      submitStore [] ⟨some "Juan Pérez", some "2024-01-10", some 9, some 0, some 9, some 0,
        none, none, none, none⟩ = []) :=
  ⟨by decide, submit_rejects_nonpositive "Juan Pérez" "2024-01-10" 9 0 9 0
    none none none none [] (by decide)⟩

/-- Witness for C3: a request without the `agent` key is rejected as
incomplete and nothing is appended. -/
theorem submit_rejects_incomplete_witness :
    ((⟨none, some "2024-01-10", some 9, some 0, some 10, some 0, none, none, none, none⟩ :
        SubmitData).agent = none ∨
      (⟨none, some "2024-01-10", some 9, some 0, some 10, some 0, none, none, none, none⟩ :
        SubmitData).date = none ∨
      (⟨none, some "2024-01-10", some 9, some 0, some 10, some 0, none, none, none, none⟩ :
        SubmitData).from_hour = none ∨
      (⟨none, some "2024-01-10", some 9, some 0, some 10, some 0, none, none, none, none⟩ :
        SubmitData).from_minute = none ∨
      (⟨none, some "2024-01-10", some 9, some 0, some 10, some 0, none, none, none, none⟩ :
        SubmitData).to_hour = none ∨
      (⟨none, some "2024-01-10", some 9, some 0, some 10, some 0, none, none, none, none⟩ :
        SubmitData).to_minute = none) ∧
    (submit_overtime ⟨none, some "2024-01-10", some 9, some 0, some 10, some 0,
        none, none, none, none⟩ = .incompleteInput ∧
      submitStore [] ⟨none, some "2024-01-10", some 9, some 0, some 10, some 0,
        none, none, none, none⟩ = []) :=
  ⟨Or.inl rfl, submit_rejects_incomplete
    ⟨none, some "2024-01-10", some 9, some 0, some 10, some 0, none, none, none, none⟩
    [] (Or.inl rfl)⟩

/-- Witness for C9: `to_hour = 99` is accepted and appended. -/
theorem submit_appends_without_range_check_witness :
    ((9 : Int) * 60 + 0 < 99 * 60 + 0) ∧
    (∃ row msg,
      submit_overtime ⟨some "Juan Pérez", some "2024-01-10", some 9, some 0, some 99, some 0,
          none, none, none, none⟩ = .ok row msg ∧
        submitStore [] ⟨some "Juan Pérez", some "2024-01-10", some 9, some 0, some 99, some 0,
          none, none, none, none⟩ = [] ++ [row]) :=
  ⟨by decide, submit_appends_without_range_check "Juan Pérez" "2024-01-10" 9 0 99 0
    none none none none [] (by decide)⟩

/-- Witness for C6: a store holding only another agent's record yields the
zero aggregate and an empty rows list. -/
theorem getTotals_empty_agent_witness :
    (∀ r ∈ ([⟨"María García", "2024-01-10", "09:00", "10:00", "Scheduled OT", "No", "No",
        "No", "1h 0m"⟩] : List StoredRecord), r.agentName ≠ "Juan Pérez") ∧
    get_totals ⟨some "Juan Pérez", none⟩
        [⟨"María García", "2024-01-10", "09:00", "10:00", "Scheduled OT", "No", "No",
          "No", "1h 0m"⟩] = .ok 0 0 [] :=
  ⟨by decide, getTotals_empty_agent "Juan Pérez" none
    [⟨"María García", "2024-01-10", "09:00", "10:00", "Scheduled OT", "No", "No",
      "No", "1h 0m"⟩] (by decide)⟩

/-- Counterexample to C7 as stated: a store holding one record that matches
the queried agent but whose `Total Time` is `"xh"` makes `get_totals` return
an error carrying no rows, so no row summary is produced for a matching
record. -/
theorem getTotals_rows_exact_claim_cex :
    ((⟨"Carlos López", "2024-01-10", "09:00", "10:00", "r", "No", "No", "No", "xh"⟩ :
        StoredRecord).agentName = "Carlos López") ∧
    get_totals ⟨some "Carlos López", none⟩
        [⟨"Carlos López", "2024-01-10", "09:00", "10:00", "r", "No", "No", "No", "xh"⟩] =
      .error := by
  decide

/-- Witness for C7 (amended) on a one-record store whose `Total Time`
parses: the returned rows are the summaries of the matching records. -/
theorem getTotals_rows_exact_witness :
    (get_totals ⟨some "Carlos López", none⟩
        [⟨"Carlos López", "2024-01-10", "09:00", "12:30", "r", "No", "No", "No", "3h 30m"⟩] =
      .ok 3 30 [summarize ⟨"Carlos López", "2024-01-10", "09:00", "12:30", "r", "No", "No",
        "No", "3h 30m"⟩]) ∧
    [summarize ⟨"Carlos López", "2024-01-10", "09:00", "12:30", "r", "No", "No", "No",
        "3h 30m"⟩] =
      (([⟨"Carlos López", "2024-01-10", "09:00", "12:30", "r", "No", "No", "No", "3h 30m"⟩] :
          List StoredRecord).filter (fun r => r.agentName == "Carlos López")).map summarize :=
  ⟨by decide, getTotals_rows_exact "Carlos López" none
    [⟨"Carlos López", "2024-01-10", "09:00", "12:30", "r", "No", "No", "No", "3h 30m"⟩]
    3 30 _ (by decide)⟩

/-- Counterexample to C4 as stated: `""` splits into zero tokens — not 1 or
2 numeric tokens — yet causes no parse failure (it contributes zero and the
query succeeds), and `"1 2 3"` splits into three numeric tokens yet also
causes no failure (only the first two are used: 1*60+2 = 62). -/
theorem parse_failure_claim_cex :
    timeTokens "" = [] ∧ parseTotalTime "" = some 0 ∧
    timeTokens "1 2 3" = [['1'], ['2'], ['3']] ∧ parseTotalTime "1 2 3" = some 62 ∧
    get_totals ⟨some "Ana Martínez", none⟩
        [⟨"Ana Martínez", "2024-01-10", "09:00", "10:00", "r", "No", "No", "No", ""⟩] =
      .ok 0 0 [summarize ⟨"Ana Martínez", "2024-01-10", "09:00", "10:00", "r", "No", "No",
        "No", ""⟩] := by
  decide

/-- Witness for C10: a matched record with `Total Time` `"xh"` makes the
whole query fail. -/
theorem getTotals_fails_on_bad_token_witness :
    (∃ r ∈ ([⟨"Pedro Rodríguez", "2024-01-10", "09:00", "10:00", "r", "No", "No", "No",
        "xh"⟩] : List StoredRecord), r.agentName = "Pedro Rodríguez" ∧
        badUsedToken (timeTokens r.totalTime)) ∧
    get_totals ⟨some "Pedro Rodríguez", none⟩
        [⟨"Pedro Rodríguez", "2024-01-10", "09:00", "10:00", "r", "No", "No", "No", "xh"⟩] =
      .error :=
  ⟨⟨⟨"Pedro Rodríguez", "2024-01-10", "09:00", "10:00", "r", "No", "No", "No", "xh"⟩,
      by decide, rfl, Or.inl ⟨['x'], by decide, by decide⟩⟩,
    getTotals_fails_on_bad_token "Pedro Rodríguez" none
      [⟨"Pedro Rodríguez", "2024-01-10", "09:00", "10:00", "r", "No", "No", "No", "xh"⟩]
      ⟨⟨"Pedro Rodríguez", "2024-01-10", "09:00", "10:00", "r", "No", "No", "No", "xh"⟩,
        by decide, rfl, Or.inl ⟨['x'], by decide, by decide⟩⟩⟩

end OT
